import Mathlib

/-!
Verification of the `dj_db_manager` import/export utility
(`src/dj_db_manager.py`) against its natural-language specification.

The development is a shallow embedding of the Python source:

* the filesystem is a finite association list from paths to *parsed* file
  contents (the utility only ever reads a file as a whole through `csv` /
  `json`, so a file is modelled by its parse under its own format; a file
  whose bytes do not parse under the extension used to read it is modelled
  by the `unreadable` constructor, which makes `get_file_headers` return
  an empty header together with an error text, exactly as the Python
  `except` branch does);
* the database is a finite association list from table names to tables;
  a table holds its column list (in ordinal position order), its rows
  (each row is the list of the values of the row, aligned with the column
  list, in insertion order) and the current value of the `<table>_id_seq`
  sequence.  The relational engine is the external collaborator of the
  spec: the model stores inserted values as given and returns them on
  `SELECT`;
* scalar values are the scalars the utility moves around: strings,
  integers, floats (modelled as exact rationals), booleans, NULL, and the
  database-side temporal/decimal types, each carried together with its
  textual (ISO-8601 / `str`) rendering so that the export coercions of
  `CustomJSONEncoder` and of the inline conversion in `export_db_to_file`
  can be stated;
* `import_file_to_db` additionally returns the trace of the external
  accesses it performed (file stat, file content read, database query),
  so that claims about *when* an access happens can be stated;
* Python exceptions inside an operation are modelled with `Except`; the
  operation boundary (`try/except` in the source) converts them into the
  returned message string, as the source does.
-/

namespace DjDbManager

/-- A scalar value as handled by the utility.  `vFloat` models a Python
float by an exact rational; `vDate`/`vTime`/`vDatetime` carry the
`isoformat()` rendering of the underlying object and `vDecimal` carries
the exact rational value of the `Decimal`. -/
inductive Value where
  | vStr (s : String)
  | vInt (n : Int)
  | vFloat (q : ℚ)
  | vBool (b : Bool)
  | vNull
  | vDate (iso : String)
  | vTime (iso : String)
  | vDatetime (iso : String)
  | vDecimal (q : ℚ)
deriving DecidableEq

/-- The scalars that can appear in a parsed JSON document
(`json.load` only ever produces str, int, float, bool, None). -/
def json_scalar : Value → Bool
  | Value.vStr _ => true
  | Value.vInt _ => true
  | Value.vFloat _ => true
  | Value.vBool _ => true
  | Value.vNull => true
  | _ => false

/-- The JSON export coercion: `CustomJSONEncoder.default` together with
the inline conversion in `export_db_to_file` (lines 218–231): datetime,
date and time serialize to their ISO-8601 text, `Decimal` to float;
every other scalar is passed through unchanged. -/
def jsonCoerce : Value → Value
  | Value.vDate s => Value.vStr s
  | Value.vTime s => Value.vStr s
  | Value.vDatetime s => Value.vStr s
  | Value.vDecimal q => Value.vFloat q
  | v => v

/-- Rendering of a value as a CSV cell (`csv.writer` applies `str`):
strings stay themselves, None becomes the empty field, booleans become
`True`/`False`; the temporal types render as the carried text. -/
def csvCell : Value → String
  | Value.vStr s => s
  | Value.vInt n => toString n
  | Value.vFloat q => toString q
  | Value.vBool b => if b then "True" else "False"
  | Value.vNull => ""
  | Value.vDate s => s
  | Value.vTime s => s
  | Value.vDatetime s => s
  | Value.vDecimal q => toString q

/-- Parsed content of a file on disk.
`csvData` is the list of the records of the file (the first record is the
header line); `jsonArray` is a top-level JSON array of objects, each
object an association list from key to scalar; `unreadable` stands for
bytes that raise in the parser used to read them. -/
inductive FileData where
  | csvData (records : List (List String))
  | jsonArray (rows : List (List (String × Value)))
  | unreadable
deriving DecidableEq

/-- The filesystem: paths bound to file contents. -/
abbrev FS := List (String × FileData)

/-- `os.path.exists` (`check_file_exists`, line 90). -/
def fsExists (fs : FS) (p : String) : Bool := (fs.lookup p).isSome

/-- Writing a file (`open(path, "w")` followed by a full write). -/
def fsWrite (fs : FS) (p : String) (d : FileData) : FS :=
  (p, d) :: fs

/-- A database table: column names in ordinal position order, the stored
rows (each aligned with `columns`) in insertion order, and the current
restart value of the `<table>_id_seq` sequence. -/
structure Table where
  columns : List String
  rows : List (List Value)
  seq : Nat
deriving DecidableEq

/-- The database: named tables, plus the connection-liveness state that
`check_database_connection` observes (`live = false` means the liveness
query raises `OperationalError` carrying the text `connErr`). -/
structure DB where
  tables : List (String × Table)
  live : Bool
  connErr : String
deriving DecidableEq

def lookupTable (db : DB) (t : String) : Option Table := db.tables.lookup t

/-- Replace the stored state of table `t` (the net effect of the
mutating SQL statements of the utility on the model). -/
def setTable (db : DB) (t : String) (tb : Table) : DB :=
  { db with tables := db.tables.map (fun x => if x.1 = t then (t, tb) else x) }

/-- ASCII case folding of one character (`str.lower` restricted to the
ASCII letters — the only characters the utility's comparisons rely on). -/
def ascii_lower_char (c : Char) : Char :=
  if 'A' ≤ c ∧ c ≤ 'Z' then Char.ofNat (c.toNat + 32) else c

/-- `str.lower`. -/
def py_lower (s : String) : String := ⟨s.data.map ascii_lower_char⟩

/-- `str.endswith`. -/
def py_endswith (s suf : String) : Bool := suf.data.isSuffixOf s.data

/-- A single-quote character, for the Python `repr` of strings. -/
def squote : String := String.singleton (Char.ofNat 39)

/-- Python `repr` of a string (as it appears inside an f-string rendering
of a list; escaping inside the string is not modelled). -/
def pyStrRepr (s : String) : String := squote ++ s ++ squote

/-- Python `str` of a list of strings, as interpolated by an f-string:
`['a', 'b']`. -/
def pyListRepr (l : List String) : String :=
  "[" ++ String.intercalate ", " (l.map pyStrRepr) ++ "]"

/-- `validate_file_type` (lines 35–39). -/
def validate_file_type (p : String) : Bool × String :=
  if py_endswith (py_lower p) ".csv" || py_endswith (py_lower p) ".json" then
    (true, "")
  else
    (false, "Error: Only CSV and JSON files are supported")

/-- `get_file_headers` (lines 41–55).  A `.csv` path is read with
`csv.reader` (the header is the first record; an empty file makes
`next(reader)` raise `StopIteration`, caught by the `except` branch);
any other path is read with `json.load` (the header is the key list of
the first object of a non-empty top-level array; an empty array yields
an empty header with format `json`; anything that raises is the
`except` branch, which returns an empty header and an error text). -/
def get_file_headers (fs : FS) (p : String) : List String × String :=
  match fs.lookup p with
  | none => ([], "Error reading file: file not found")
  | some fd =>
    if py_endswith (py_lower p) ".csv" then
      match fd with
      | FileData.csvData (h :: _) => (h, "csv")
      | _ => ([], "Error reading file: no header record")
    else
      match fd with
      | FileData.jsonArray (r :: _) => (r.map Prod.fst, "json")
      | FileData.jsonArray [] => ([], "json")
      | _ => ([], "Error reading file: not a JSON array of objects")

/-- `check_table_exists` (lines 94–103). -/
def check_table_exists (db : DB) (t : String) : Bool := (lookupTable db t).isSome

/-- `get_table_columns` (lines 105–117): column names in ordinal order;
when `include_id` is false, the first column literally named `id` is
removed if present (`list.remove`; `List.erase` is exactly that, and a
no-op when no such column exists, as the `if 'id' in columns` guard
makes it). -/
def get_table_columns (db : DB) (t : String) (include_id : Bool) : List String :=
  match lookupTable db t with
  | none => []
  | some tb => if include_id then tb.columns else tb.columns.erase "id"

/-- `clean_table` (lines 119–125): `DELETE FROM t` then
`ALTER SEQUENCE t_id_seq RESTART WITH 1`.  When the table has no `id`
column there is no `t_id_seq` sequence, so the second statement raises
after the delete has already taken effect. -/
def clean_table (db : DB) (t : String) : DB × Except String Unit :=
  match lookupTable db t with
  | none => (db, Except.error ("relation " ++ t ++ " does not exist"))
  | some tb =>
    if "id" ∈ tb.columns then
      (setTable db t { tb with rows := [], seq := 1 }, Except.ok ())
    else
      (setTable db t { tb with rows := [] },
       Except.error ("sequence " ++ t ++ "_id_seq does not exist"))

/-- `check_database_connection` (lines 67–74): run `SELECT 1`; on
success report success, on `OperationalError` report the failure as a
returned value. -/
def check_database_connection (db : DB) : Bool × String :=
  if db.live then
    (true, "Database connection successful")
  else
    (false, "Database connection failed: " ++ db.connErr)

/-- An external access performed by an operation: a file-existence check
(`os.path.exists`), a read of a file's contents (`open` + parse), or a
query sent to the database. -/
inductive Effect where
  | statFile (p : String)
  | readFile (p : String)
  | dbQuery
deriving DecidableEq

/-- The result messages of `import_file_to_db`, in source order. -/
def msg_file_missing (p : String) : String :=
  "Error: File " ++ p ++ " does not exist"

def msg_bad_extension : String := "Error: Only CSV and JSON files are supported"

def msg_table_missing (t : String) : String :=
  "Error: Table " ++ t ++ " does not exist"

def msg_bad_headers : String := "Error: Could not read file headers"

def msg_mismatch (expected found : List String) : String :=
  "Error: File format does not match table structure. Expected columns: "
    ++ pyListRepr expected ++ ", Found: " ++ pyListRepr found

def msg_import_error (e : String) : String := "Error during import: " ++ e

def msg_import_ok (p t : String) : String :=
  "Successfully imported " ++ p ++ " to " ++ t

def msg_export_error (e : String) : String := "Error during export: " ++ e

def msg_export_ok (t p : String) : String :=
  "Successfully exported " ++ t ++ " to " ++ p

/-- The value a stored cell of column `c` gets when a row is inserted
from the mapping `a`: the mapping's own value when the key is present;
otherwise the engine default — the next sequence value for `id`, NULL
for any other absent column. -/
def rowValue (a : List (String × Value)) (seq : Nat) (c : String) : Value :=
  match a.lookup c with
  | some v => v
  | none => if c = "id" then Value.vInt seq else Value.vNull

/-- One `INSERT INTO t (keys of the row) VALUES (...)` statement
(lines 166–169 / 174–177): the statement names exactly the row's own
keys, so it raises when some key is not a column of the table;
otherwise the engine completes the absent columns with their defaults
(the sequence feeds `id` and advances only then). -/
def insert_row (tb : Table) (a : List (String × Value)) : Except String Table :=
  if a.all (fun kv => kv.1 ∈ tb.columns) then
    Except.ok
      { tb with
        rows := tb.rows ++ [tb.columns.map (rowValue a tb.seq)],
        seq := if (a.lookup "id").isSome then tb.seq else tb.seq + 1 }
  else
    Except.error "column of the file row does not exist in the table"

/-- The import loop over the rows of the file: one insert per row, in
file order; the first failing insert stops the loop with the rows
already inserted kept (no transaction wrapping).  Also returns the
number of insert statements attempted. -/
def insert_rows : Table → List (List (String × Value)) → Table × Except String Unit × Nat
  | tb, [] => (tb, Except.ok (), 0)
  | tb, a :: rest =>
    match insert_row tb a with
    | Except.ok tb1 =>
      let r := insert_rows tb1 rest
      (r.1, r.2.1, r.2.2 + 1)
    | Except.error e => (tb, Except.error e, 1)

/-- The rows of a CSV file as `csv.DictReader` yields them (lines
163–165): each data record as a mapping from the header names to the
record's fields, every field a string. -/
def read_csv_records (fs : FS) (p : String) : List (List (String × Value)) :=
  match fs.lookup p with
  | some (FileData.csvData (h :: rs)) => rs.map (fun r => h.zip (r.map Value.vStr))
  | _ => []

/-- The rows of a JSON file as `json.load` yields them (lines 171–173):
every object of the top-level array. -/
def read_json_records (fs : FS) (p : String) : List (List (String × Value)) :=
  match fs.lookup p with
  | some (FileData.jsonArray rows) => rows
  | _ => []

/-- `import_file_to_db` (lines 127–182).  Returns the database after the
operation, the result message, and the trace of external accesses in
the order they were performed.  The five validation steps of the source
appear in source order and short-circuit; the body after them is the
`clean_table` call followed by the insert loop, with every raise caught
at the operation boundary (the `try/except` of the source) and turned
into an `Error during import` message. -/
def import_file_to_db (fs : FS) (db : DB) (file_path table_name : String) :
    DB × String × List Effect :=
  if fsExists fs file_path = false then
    (db, msg_file_missing file_path, [Effect.statFile file_path])
  else if (validate_file_type file_path).1 = false then
    (db, (validate_file_type file_path).2, [Effect.statFile file_path])
  else
    match lookupTable db table_name with
    | none =>
      (db, msg_table_missing table_name,
       [Effect.statFile file_path, Effect.dbQuery])
    | some tb =>
      let hf := get_file_headers fs file_path
      if hf.1 = [] then
        (db, msg_bad_headers,
         [Effect.statFile file_path, Effect.dbQuery, Effect.readFile file_path])
      else
        let table_columns :=
          if "id" ∈ hf.1 then tb.columns else tb.columns.erase "id"
        if hf.1.toFinset ≠ table_columns.toFinset then
          (db, msg_mismatch table_columns hf.1,
           [Effect.statFile file_path, Effect.dbQuery,
            Effect.readFile file_path, Effect.dbQuery])
        else if "id" ∈ tb.columns then
          let recs :=
            if hf.2 = "csv" then read_csv_records fs file_path
            else read_json_records fs file_path
          let res := insert_rows { tb with rows := [], seq := 1 } recs
          let db2 := setTable db table_name res.1
          let trace :=
            [Effect.statFile file_path, Effect.dbQuery,
             Effect.readFile file_path, Effect.dbQuery,
             Effect.dbQuery, Effect.dbQuery, Effect.readFile file_path]
              ++ List.replicate res.2.2 Effect.dbQuery
          match res.2.1 with
          | Except.ok _ => (db2, msg_import_ok file_path table_name, trace)
          | Except.error e => (db2, msg_import_error e, trace)
        else
          (setTable db table_name { tb with rows := [] },
           msg_import_error ("sequence " ++ table_name ++ "_id_seq does not exist"),
           [Effect.statFile file_path, Effect.dbQuery,
            Effect.readFile file_path, Effect.dbQuery,
            Effect.dbQuery, Effect.dbQuery])

/-- `export_db_to_file` (lines 184–240).  `response` is what `input`
returns when the overwrite prompt is shown; the prompt is shown only
when the destination already exists, and the export proceeds only when
the response, lowercased, is exactly `y`.  A `.csv` destination gets
the header line in table-column order followed by one record per row
(`str` of each value); any other (i.e. `.json`) destination gets the
array of row objects with the export coercion applied to each value. -/
def export_db_to_file (fs : FS) (db : DB) (table_name file_path response : String) :
    FS × String :=
  if (validate_file_type file_path).1 = false then
    (fs, (validate_file_type file_path).2)
  else
    match lookupTable db table_name with
    | none => (fs, msg_table_missing table_name)
    | some tb =>
      if fsExists fs file_path && !(py_lower response = "y") then
        (fs, "Export cancelled")
      else
        if py_endswith (py_lower file_path) ".csv" then
          (fsWrite fs file_path
            (FileData.csvData (tb.columns :: tb.rows.map (fun r => r.map csvCell))),
           msg_export_ok table_name file_path)
        else
          (fsWrite fs file_path
            (FileData.jsonArray
              (tb.rows.map (fun r =>
                (tb.columns.zip r).map (fun cv => (cv.1, jsonCoerce cv.2))))),
           msg_export_ok table_name file_path)

/-- The rows of a file, each as the (finite) mapping from column name to
scalar value it denotes — the representation under which two files hold
"the same rows": for a CSV file the data records zipped with the header
(fields are strings), for a JSON file the objects themselves. -/
def file_row_maps : FileData → Multiset (Finset (String × Value))
  | FileData.csvData [] => 0
  | FileData.csvData (h :: rs) =>
    ↑(rs.map (fun r => (h.zip (r.map Value.vStr)).toFinset))
  | FileData.jsonArray rows => ↑(rows.map (fun r => r.toFinset))
  | FileData.unreadable => 0

/-- The key list of a row mapping. -/
def rowKeys (a : List (String × Value)) : List String := a.map Prod.fst

/-- A file whose rows are well-formed with respect to the column list
`cols` of the target table: the header is a duplicate-free enumeration
of `cols` (as a set), and every data row binds exactly the header's
keys — for CSV, by having exactly one field per header name; for JSON,
by each object having duplicate-free keys enumerating `cols` and
JSON-representable scalar values. -/
def good_import_file (cols : List String) : FileData → Prop
  | FileData.csvData [] => False
  | FileData.csvData (h :: rs) =>
    h.Nodup ∧ h.toFinset = cols.toFinset ∧ ∀ r ∈ rs, r.length = h.length
  | FileData.jsonArray [] => False
  | FileData.jsonArray (r0 :: rs) =>
    ∀ r ∈ r0 :: rs,
      (rowKeys r).Nodup ∧ (rowKeys r).toFinset = cols.toFinset ∧
        ∀ kv ∈ r, json_scalar kv.2 = true
  | FileData.unreadable => False

/-- The file's format agrees with the extension of the path it sits at
(so that reading the path parses the content as the content's format). -/
def format_matches : FileData → String → Bool
  | FileData.csvData _, p => py_endswith (py_lower p) ".csv"
  | FileData.jsonArray _, p =>
    py_endswith (py_lower p) ".json" && !py_endswith (py_lower p) ".csv"
  | FileData.unreadable, _ => false

/-- The possible result messages of `import_file_to_db`: one of the five
validation messages, the catch-all wrapping of a raised error, or the
success message — an exhaustive enumeration, which is the model-level
statement that no exception escapes the operation boundary. -/
def import_result_handled (r p t : String) : Prop :=
  r = msg_file_missing p ∨ r = msg_bad_extension ∨ r = msg_table_missing t ∨
    r = msg_bad_headers ∨ (∃ e f, r = msg_mismatch e f) ∨
    (∃ e, r = msg_import_error e) ∨ r = msg_import_ok p t

/-! ### Basic lemmas about the model -/

theorem lookup_cons_self (k : String) (v : Value) (a : List (String × Value)) :
    List.lookup k ((k, v) :: a) = some v := by
  simp [List.lookup]

theorem lookup_cons_ne {k k' : String} (v : Value) (a : List (String × Value))
    (h : k' ≠ k) : List.lookup k' ((k, v) :: a) = List.lookup k' a := by
  simp [List.lookup, beq_eq_false_iff_ne.mpr h]

theorem mem_of_lookup_eq_some {a : List (String × Value)} {k : String} {v : Value}
    (h : List.lookup k a = some v) : (k, v) ∈ a := by
  induction a with
  | nil => simp [List.lookup] at h
  | cons p rest ih =>
    obtain ⟨k0, v0⟩ := p
    rw [List.lookup] at h
    by_cases hk : k = k0
    · subst hk
      simp only [beq_self_eq_true] at h
      simp only [Option.some.injEq] at h
      subst h
      exact List.mem_cons_self _ _
    · rw [beq_eq_false_iff_ne.mpr hk] at h
      exact List.mem_cons_of_mem _ (ih h)

theorem lookup_isSome_of_mem_keys {a : List (String × Value)} {k : String}
    (h : k ∈ rowKeys a) : (List.lookup k a).isSome := by
  induction a with
  | nil => simp [rowKeys] at h
  | cons p rest ih =>
    obtain ⟨k0, v0⟩ := p
    by_cases hk : k = k0
    · subst hk
      simp [List.lookup]
    · rw [lookup_cons_ne _ _ hk]
      apply ih
      simp only [rowKeys, List.map_cons, List.mem_cons] at h
      rcases h with h | h
      · exact absurd h hk
      · exact h

theorem list_toFinset_map_image {α β : Type} [DecidableEq α] [DecidableEq β]
    (l : List α) (f : α → β) : (l.map f).toFinset = l.toFinset.image f := by
  induction l with
  | nil => simp
  | cons a t ih => simp [ih]

theorem lookup_map_replace (t : String) (x : Table) :
    ∀ l : List (String × Table), (List.lookup t l).isSome →
      List.lookup t (l.map (fun e => if e.1 = t then (t, x) else e)) = some x := by
  intro l
  induction l with
  | nil => intro h; simp [List.lookup] at h
  | cons p rest ih =>
    intro h
    obtain ⟨k0, tb0⟩ := p
    by_cases hk : k0 = t
    · subst hk
      simp only [List.map_cons, if_pos rfl]
      simp [List.lookup]
    · rw [List.lookup, beq_eq_false_iff_ne.mpr (Ne.symm hk)] at h
      simp only [List.map_cons, if_neg hk]
      rw [List.lookup, beq_eq_false_iff_ne.mpr (Ne.symm hk)]
      exact ih h

theorem lookupTable_setTable (db : DB) (t : String) (x : Table)
    (h : (lookupTable db t).isSome) : lookupTable (setTable db t x) t = some x :=
  lookup_map_replace t x db.tables h

theorem validate_file_type_snd {p : String}
    (h : (validate_file_type p).1 = false) :
    (validate_file_type p).2 = msg_bad_extension := by
  unfold validate_file_type at *
  by_cases hc : (py_endswith (py_lower p) ".csv" || py_endswith (py_lower p) ".json") = true
  · rw [if_pos hc] at h
    simp at h
  · rw [if_neg hc]
    rfl

theorem validate_file_type_of_csv {p : String}
    (h : py_endswith (py_lower p) ".csv" = true) :
    (validate_file_type p).1 = true := by
  unfold validate_file_type
  rw [if_pos (by rw [h]; rfl)]

theorem validate_file_type_of_json {p : String}
    (h : py_endswith (py_lower p) ".json" = true) :
    (validate_file_type p).1 = true := by
  unfold validate_file_type
  rw [if_pos (by rw [h, Bool.or_true])]

theorem string_ne_of_get {x y : String} (i : Nat)
    (h : x.data.get? i ≠ y.data.get? i) : x ≠ y := by
  intro he
  exact h (by rw [he])

theorem string_ne_of_getLast {x y : String}
    (h : x.data.getLast? ≠ y.data.getLast?) : x ≠ y := by
  intro he
  exact h (by rw [he])

theorem get_append_left (a b : String) (i : Nat) (hi : i < a.data.length) :
    (a ++ b).data.get? i = a.data.get? i := by
  rw [String.data_append]
  exact List.get?_append hi

/-! ### Claim theorems: the validation and error paths -/

/-- C8.  `check_database_connection` always returns a success flag and a
human-readable message as a value: on a live connection the success
message, on a connection failure (the `OperationalError` of the
liveness query) the failure message wrapping the error text — never an
uncaught exception. -/
theorem check_connection_returns_value (db : DB) :
    check_database_connection db = (true, "Database connection successful") ∨
    ∃ e : String,
      check_database_connection db = (false, "Database connection failed: " ++ e) := by
  by_cases h : db.live
  · left
    simp [check_database_connection, h]
  · right
    exact ⟨db.connErr, by simp [check_database_connection, h]⟩

/-- C7.  A JSON file holding an empty top-level array yields an empty
header list (with format `json`), and `import_file_to_db` then rejects
the import with the could-not-read-file-headers message, touching no
table: the database is returned unchanged and the trace shows no
mutating query (only the table-existence query and the file read). -/
theorem empty_json_array_rejected (fs : FS) (db : DB) (p t : String) (tb : Table)
    (hfile : fs.lookup p = some (FileData.jsonArray []))
    (hjson : py_endswith (py_lower p) ".json" = true)
    (hcsv : py_endswith (py_lower p) ".csv" = false)
    (hlk : lookupTable db t = some tb) :
    get_file_headers fs p = ([], "json") ∧
    import_file_to_db fs db p t =
      (db, msg_bad_headers,
       [Effect.statFile p, Effect.dbQuery, Effect.readFile p]) := by
  have hgh : get_file_headers fs p = ([], "json") := by
    simp [get_file_headers, hfile, hcsv]
  refine ⟨hgh, ?_⟩
  simp [import_file_to_db, fsExists, hfile, validate_file_type_of_json hjson, hlk, hgh]

/-- C2 (theorem).  When the file's header set differs from the table's
column set (under the id-inclusion rule), `import_file_to_db` returns
the schema-mismatch message and the database is returned exactly as it
was: no `DELETE`, no sequence reset, no `INSERT` (the `clean_table`
call sits after every validation step in the source). -/
theorem import_schema_mismatch_no_mutation (fs : FS) (db : DB) (p t ft : String)
    (tb : Table) (h : List String)
    (hex : fsExists fs p = true)
    (hv : (validate_file_type p).1 = true)
    (hlk : lookupTable db t = some tb)
    (hgh : get_file_headers fs p = (h, ft))
    (hne : h ≠ [])
    (hmm : h.toFinset ≠
      (if "id" ∈ h then tb.columns else tb.columns.erase "id").toFinset) :
    import_file_to_db fs db p t =
      (db, msg_mismatch (if "id" ∈ h then tb.columns else tb.columns.erase "id") h,
       [Effect.statFile p, Effect.dbQuery, Effect.readFile p, Effect.dbQuery]) := by
  simp [import_file_to_db, hex, hv, hlk, hgh, hne, hmm]

/-- C5 (amended theorem).  For an *existing* path with an extension
other than `.csv`/`.json`, the import is rejected with the
unsupported-format message, and the only external access performed is
the file-existence check: the file's contents are never read and no
database query is issued. -/
theorem unsupported_extension_rejected_after_stat (fs : FS) (db : DB) (p t : String)
    (hex : fsExists fs p = true)
    (hv : (validate_file_type p).1 = false) :
    import_file_to_db fs db p t = (db, msg_bad_extension, [Effect.statFile p]) ∧
    (∀ q : String, Effect.readFile q ∉ (import_file_to_db fs db p t).2.2) ∧
    Effect.dbQuery ∉ (import_file_to_db fs db p t).2.2 := by
  have h1 : import_file_to_db fs db p t = (db, msg_bad_extension, [Effect.statFile p]) := by
    simp [import_file_to_db, hex, hv, validate_file_type_snd hv]
  refine ⟨h1, ?_, ?_⟩ <;> simp [h1]

/-- C5 (counterexample).  On the nonexistent path `r.txt` the operation
is rejected with the file-does-not-exist message, not the
unsupported-format message the claim requires for *every* path with an
unsupported extension — the existence check runs first. -/
theorem unsupported_extension_cx :
    (import_file_to_db [] ⟨[], true, ""⟩ "r.txt" "listings").2.1 =
      msg_file_missing "r.txt" ∧
    msg_file_missing "r.txt" ≠ msg_bad_extension := by
  decide

/-- C6.  Exporting onto an existing path with response `n` leaves the
filesystem (hence the existing file's contents) unmodified and returns
the distinct cancellation result, which is not one of the `Error`
messages. -/
theorem export_decline_overwrite_cancels (fs : FS) (db : DB) (t p : String)
    (tb : Table) (d : FileData)
    (hv : (validate_file_type p).1 = true)
    (hlk : lookupTable db t = some tb)
    (hfile : fs.lookup p = some d) :
    export_db_to_file fs db t p "n" = (fs, "Export cancelled") ∧
    (export_db_to_file fs db t p "n").1.lookup p = some d ∧
    (∀ s : String, "Export cancelled" ≠ "Error" ++ s) := by
  have hny : py_lower "n" ≠ "y" := by decide
  have h1 : export_db_to_file fs db t p "n" = (fs, "Export cancelled") := by
    simp [export_db_to_file, hv, hlk, fsExists, hfile, hny]
  refine ⟨h1, by rw [h1]; exact hfile, ?_⟩
  intro s
  apply string_ne_of_get 1
  rw [get_append_left _ _ 1 (by decide)]
  decide

/-- C9.  When the destination exists, the export proceeds exactly when
the response lowercases to `y`; every other response yields the
cancellation result with the filesystem unmodified. -/
theorem export_overwrite_requires_y (fs : FS) (db : DB) (t p resp : String)
    (tb : Table)
    (hv : (validate_file_type p).1 = true)
    (hlk : lookupTable db t = some tb)
    (hex : fsExists fs p = true) :
    (py_lower resp ≠ "y" →
      export_db_to_file fs db t p resp = (fs, "Export cancelled")) ∧
    (py_lower resp = "y" →
      (export_db_to_file fs db t p resp).2 = msg_export_ok t p) := by
  constructor
  · intro hresp
    simp [export_db_to_file, hv, hlk, hex, hresp]
  · intro hresp
    by_cases hc : py_endswith (py_lower p) ".csv" = true
    · simp [export_db_to_file, hv, hlk, hex, hresp, hc]
    · simp [export_db_to_file, hv, hlk, hex, hresp, hc]

/-- C10.  A valid CSV file consisting of the matching header line and
zero data rows passes every validation step; the import then clears the
target table (all rows deleted, sequence restarted at 1), inserts
nothing, and reports success. -/
theorem header_only_csv_clears_table (fs : FS) (db : DB) (p t : String)
    (tb : Table) (h : List String)
    (hfile : fs.lookup p = some (FileData.csvData [h]))
    (hcsv : py_endswith (py_lower p) ".csv" = true)
    (hlk : lookupTable db t = some tb)
    (hne : h ≠ [])
    (hmatch : h.toFinset =
      (if "id" ∈ h then tb.columns else tb.columns.erase "id").toFinset)
    (hid : "id" ∈ tb.columns) :
    import_file_to_db fs db p t =
      (setTable db t { tb with rows := [], seq := 1 }, msg_import_ok p t,
       [Effect.statFile p, Effect.dbQuery, Effect.readFile p, Effect.dbQuery,
        Effect.dbQuery, Effect.dbQuery, Effect.readFile p]) ∧
    lookupTable (import_file_to_db fs db p t).1 t =
      some { tb with rows := [], seq := 1 } := by
  have hgh : get_file_headers fs p = (h, "csv") := by
    simp [get_file_headers, hfile, hcsv]
  have h1 : import_file_to_db fs db p t =
      (setTable db t { tb with rows := [], seq := 1 }, msg_import_ok p t,
       [Effect.statFile p, Effect.dbQuery, Effect.readFile p, Effect.dbQuery,
        Effect.dbQuery, Effect.dbQuery, Effect.readFile p]) := by
    simp [import_file_to_db, fsExists, hfile, validate_file_type_of_csv hcsv, hlk,
      hgh, hne, hmatch, hid, read_csv_records, insert_rows]
  refine ⟨h1, ?_⟩
  rw [h1]
  exact lookupTable_setTable db t _ (by rw [hlk]; rfl)

/-- C3.  The import's column-compatibility check: (i) it compares the
file header and the comparison columns as unordered sets — any two
headers with the same element set are accepted or rejected alike;
(ii) the table's `id` column is part of the comparison set exactly when
the file's header contains `id`; (iii) on mismatch the returned message
is the one that reports both the expected column set and the found
column set. -/
theorem import_column_check_sets_and_id (db : DB) (t : String) (tb : Table)
    (hlk : lookupTable db t = some tb)
    (hnd : tb.columns.Nodup)
    (hid : "id" ∈ tb.columns) :
    (∀ h1 h2 : List String, h1.toFinset = h2.toFinset →
      ((h1.toFinset = (get_table_columns db t ("id" ∈ h1)).toFinset) ↔
        (h2.toFinset = (get_table_columns db t ("id" ∈ h2)).toFinset))) ∧
    (∀ h : List String,
      "id" ∈ get_table_columns db t ("id" ∈ h) ↔ "id" ∈ h) ∧
    (∀ (fs : FS) (p ft : String) (h : List String),
      fsExists fs p = true →
      (validate_file_type p).1 = true →
      get_file_headers fs p = (h, ft) →
      h ≠ [] →
      h.toFinset ≠ (get_table_columns db t ("id" ∈ h)).toFinset →
      (import_file_to_db fs db p t).2.1 =
        msg_mismatch (get_table_columns db t ("id" ∈ h)) h) := by
  have hgc : ∀ h : List String,
      get_table_columns db t ("id" ∈ h) =
        if "id" ∈ h then tb.columns else tb.columns.erase "id" := by
    intro h
    by_cases hm : "id" ∈ h
    · simp [get_table_columns, hlk, hm]
    · simp [get_table_columns, hlk, hm]
  refine ⟨?_, ?_, ?_⟩
  · intro h1 h2 hset
    have hm : ("id" ∈ h1) ↔ ("id" ∈ h2) := by
      rw [← List.mem_toFinset, hset, List.mem_toFinset]
    have : get_table_columns db t ("id" ∈ h1) = get_table_columns db t ("id" ∈ h2) := by
      rw [hgc h1, hgc h2]
      by_cases hx : "id" ∈ h1
      · rw [if_pos hx, if_pos (hm.mp hx)]
      · rw [if_neg hx, if_neg (fun hy => hx (hm.mpr hy))]
    rw [hset, this]
  · intro h
    rw [hgc h]
    by_cases hm : "id" ∈ h
    · rw [if_pos hm]
      exact ⟨fun _ => hm, fun _ => hid⟩
    · rw [if_neg hm]
      constructor
      · intro hin
        exact absurd (hnd.mem_erase_iff.mp hin).1 (by simp)
      · intro hin
        exact absurd hin hm
  · intro fs p ft h hex hv hgh hne hmm
    rw [hgc h] at hmm ⊢
    simp [import_file_to_db, hex, hv, hlk, hgh, hne, hmm]

/-! ### The result messages are pairwise distinct -/

theorem msg_file_missing_get7 (p : String) :
    (msg_file_missing p).data.get? 7 = some 'F' := by
  unfold msg_file_missing
  rw [String.append_assoc, get_append_left _ _ 7 (by decide)]
  decide

theorem msg_table_missing_get7 (t : String) :
    (msg_table_missing t).data.get? 7 = some 'T' := by
  unfold msg_table_missing
  rw [String.append_assoc, get_append_left _ _ 7 (by decide)]
  decide

theorem msg_mismatch_get7 (e f : List String) :
    (msg_mismatch e f).data.get? 7 = some 'F' := by
  unfold msg_mismatch
  rw [String.append_assoc, String.append_assoc, get_append_left _ _ 7 (by decide)]
  decide

theorem msg_file_missing_last (p : String) :
    (msg_file_missing p).data.getLast? = some 't' := by
  unfold msg_file_missing
  rw [String.data_append, List.getLast?_append_of_ne_nil _ (by decide)]
  decide

theorem pyListRepr_data_ne_nil (l : List String) : (pyListRepr l).data ≠ [] := by
  unfold pyListRepr
  rw [String.data_append]
  intro hcontra
  rw [List.append_eq_nil] at hcontra
  exact absurd hcontra.2 (by decide)

theorem msg_mismatch_last (e f : List String) :
    (msg_mismatch e f).data.getLast? = some ']' := by
  unfold msg_mismatch
  rw [String.data_append, List.getLast?_append_of_ne_nil _ (pyListRepr_data_ne_nil f)]
  unfold pyListRepr
  rw [String.data_append, List.getLast?_append_of_ne_nil _ (by decide)]
  decide

theorem msg_bad_extension_get7 : msg_bad_extension.data.get? 7 = some 'O' := by
  decide

theorem msg_bad_headers_get7 : msg_bad_headers.data.get? 7 = some 'C' := by
  decide

/-! ### Round-trip lemmas: a stored row, re-serialized, denotes the same
row mapping as the file row it was inserted from -/

theorem rowValue_of_mem_keys {a : List (String × Value)} {c : String}
    (h : c ∈ rowKeys a) (s : Nat) :
    ∃ v, List.lookup c a = some v ∧ rowValue a s c = v := by
  have hs := lookup_isSome_of_mem_keys h
  obtain ⟨v, hv⟩ := Option.isSome_iff_exists.mp hs
  exact ⟨v, hv, by rw [rowValue, hv]⟩

theorem rowValue_indep {a : List (String × Value)} {c : String}
    (h : c ∈ rowKeys a) (s s' : Nat) : rowValue a s c = rowValue a s' c := by
  obtain ⟨v, hv, he⟩ := rowValue_of_mem_keys h s
  obtain ⟨v', hv', he'⟩ := rowValue_of_mem_keys h s'
  rw [he, he']
  exact Option.some.inj (hv.symm.trans hv')

theorem map_rowValue_indep (cols : List String) (a : List (String × Value))
    (s s' : Nat) (h : ∀ c ∈ cols, c ∈ rowKeys a) :
    cols.map (rowValue a s) = cols.map (rowValue a s') :=
  List.map_congr_left (fun c hc => rowValue_indep (h c hc) s s')

theorem image_keys_toFinset (a : List (String × Value)) (s : Nat)
    (hnd : (rowKeys a).Nodup) :
    (rowKeys a).toFinset.image (fun c => (c, rowValue a s c)) = a.toFinset := by
  induction a with
  | nil => simp [rowKeys]
  | cons kv rest ih =>
    obtain ⟨k, v⟩ := kv
    have hkeys : rowKeys ((k, v) :: rest) = k :: rowKeys rest := by
      simp [rowKeys]
    rw [hkeys] at hnd ⊢
    rw [List.nodup_cons] at hnd
    rw [List.toFinset_cons, Finset.image_insert]
    have hfk : rowValue ((k, v) :: rest) s k = v := by
      rw [rowValue, lookup_cons_self]
    have hcongr :
        (rowKeys rest).toFinset.image (fun c => (c, rowValue ((k, v) :: rest) s c)) =
          (rowKeys rest).toFinset.image (fun c => (c, rowValue rest s c)) := by
      apply Finset.image_congr
      intro c hc
      rw [Finset.mem_coe, List.mem_toFinset] at hc
      have hck : c ≠ k := fun he => hnd.1 (he ▸ hc)
      simp only []
      rw [rowValue, rowValue, lookup_cons_ne v rest hck]
    rw [hfk, hcongr, ih hnd.2, List.toFinset_cons]

theorem row_map_eq (cols : List String) (a : List (String × Value)) (s : Nat)
    (hnd : (rowKeys a).Nodup) (hset : cols.toFinset = (rowKeys a).toFinset) :
    (cols.map (fun c => (c, rowValue a s c))).toFinset = a.toFinset := by
  rw [list_toFinset_map_image, hset, image_keys_toFinset a s hnd]

theorem insert_rows_all_ok (cols : List String) :
    ∀ (recs : List (List (String × Value))) (tb : Table),
      tb.columns = cols →
      (∀ a ∈ recs, (rowKeys a).toFinset = cols.toFinset ∧ "id" ∈ rowKeys a) →
      insert_rows tb recs =
        ({ columns := cols,
           rows := tb.rows ++ recs.map (fun a => cols.map (rowValue a 0)),
           seq := tb.seq }, Except.ok (), recs.length) := by
  intro recs
  induction recs with
  | nil =>
    intro tb hcols _
    cases tb
    simp only at hcols
    subst hcols
    simp [insert_rows]
  | cons a rest ih =>
    intro tb hcols hall
    have ha := hall a (List.mem_cons_self a rest)
    have hmemkeys : ∀ c ∈ cols, c ∈ rowKeys a := by
      intro c hc
      rw [← List.mem_toFinset, ← ha.1, List.mem_toFinset] at hc
      exact hc
    have hcheck : a.all (fun kv => kv.1 ∈ tb.columns) = true := by
      rw [List.all_eq_true]
      intro kv hkv
      apply decide_eq_true
      rw [hcols, ← List.mem_toFinset, ← ha.1, List.mem_toFinset]
      exact List.mem_map_of_mem Prod.fst hkv
    have hidsome : (List.lookup "id" a).isSome :=
      lookup_isSome_of_mem_keys ha.2
    rw [insert_rows, insert_row, if_pos hcheck, hidsome]
    simp only [if_true]
    rw [ih _ (by simp [hcols]) (fun b hb => hall b (List.mem_cons_of_mem a hb))]
    rw [hcols, map_rowValue_indep cols a tb.seq 0 hmemkeys]
    simp

theorem csv_keys (h r : List String) (hlen : r.length = h.length) :
    rowKeys (h.zip (r.map Value.vStr)) = h := by
  unfold rowKeys
  apply List.map_fst_zip
  rw [List.length_map, hlen]

theorem zip_self_map {α β : Type} (l : List α) (f : α → β) :
    l.zip (l.map f) = l.map (fun x => (x, f x)) := by
  induction l with
  | nil => rfl
  | cons x tl ih => simp [ih]

theorem csv_values_vStr {h r : List String} {c : String} {v : Value}
    (hm : (c, v) ∈ h.zip (r.map Value.vStr)) : ∃ x, v = Value.vStr x := by
  have hv : v ∈ r.map Value.vStr := (List.of_mem_zip hm).2
  rw [List.mem_map] at hv
  obtain ⟨x, _, hx⟩ := hv
  exact ⟨x, hx.symm⟩

theorem rowValue_vStr (cols h r : List String) (hlen : r.length = h.length)
    (hmem : ∀ c ∈ cols, c ∈ h) :
    ∀ c ∈ cols, ∃ x,
      rowValue (h.zip (r.map Value.vStr)) 0 c = Value.vStr x := by
  intro c hc
  have hk : c ∈ rowKeys (h.zip (r.map Value.vStr)) := by
    rw [csv_keys h r hlen]
    exact hmem c hc
  obtain ⟨v, hv, he⟩ := rowValue_of_mem_keys hk 0
  obtain ⟨x, hx⟩ := csv_values_vStr (mem_of_lookup_eq_some hv)
  exact ⟨x, he.trans hx⟩

/-- A CSV data row, inserted and re-serialized through the table, denotes
the same column-to-value mapping it had in the source file. -/
theorem csv_row_roundtrip (cols h : List String) (r : List String)
    (hhnd : h.Nodup) (hset : h.toFinset = cols.toFinset)
    (hlen : r.length = h.length) :
    (cols.zip
      (((cols.map (rowValue (h.zip (r.map Value.vStr)) 0)).map csvCell).map
        Value.vStr)).toFinset = (h.zip (r.map Value.vStr)).toFinset := by
  have hmem : ∀ c ∈ cols, c ∈ h := by
    intro c hc
    rw [← List.mem_toFinset, ← hset, List.mem_toFinset] at hc
    exact hc
  have hstep1 :
      ((cols.map (rowValue (h.zip (r.map Value.vStr)) 0)).map csvCell).map Value.vStr
        = cols.map (rowValue (h.zip (r.map Value.vStr)) 0) := by
    rw [List.map_map, List.map_map]
    apply List.map_congr_left
    intro c hc
    obtain ⟨x, hx⟩ := rowValue_vStr cols h r hlen hmem c hc
    simp [Function.comp, hx, csvCell]
  rw [hstep1, zip_self_map]
  exact row_map_eq cols _ 0 (by rw [csv_keys h r hlen]; exact hhnd)
    (by rw [csv_keys h r hlen]; exact hset.symm)

theorem json_scalar_coerce {v : Value} (h : json_scalar v = true) :
    jsonCoerce v = v := by
  cases v <;> first | rfl | simp [json_scalar] at h

/-- A JSON object row, inserted and re-serialized through the table,
denotes the same column-to-value mapping it had in the source file. -/
theorem json_row_roundtrip (cols : List String) (a : List (String × Value))
    (hnd : (rowKeys a).Nodup) (hset : (rowKeys a).toFinset = cols.toFinset)
    (hsc : ∀ kv ∈ a, json_scalar kv.2 = true) :
    ((cols.zip (cols.map (rowValue a 0))).map
      (fun cv => (cv.1, jsonCoerce cv.2))).toFinset = a.toFinset := by
  have hmem : ∀ c ∈ cols, c ∈ rowKeys a := by
    intro c hc
    rw [← List.mem_toFinset, ← hset, List.mem_toFinset] at hc
    exact hc
  rw [zip_self_map, List.map_map]
  have hcoerce : cols.map ((fun cv : String × Value => (cv.1, jsonCoerce cv.2)) ∘
      fun c => (c, rowValue a 0 c)) = cols.map (fun c => (c, rowValue a 0 c)) := by
    apply List.map_congr_left
    intro c hc
    obtain ⟨v, hv, he⟩ := rowValue_of_mem_keys (hmem c hc) 0
    have hs : json_scalar v = true := hsc (c, v) (mem_of_lookup_eq_some hv)
    simp [Function.comp, he, json_scalar_coerce hs]
  rw [hcoerce]
  exact row_map_eq cols a 0 hnd hset.symm

theorem import_result_handled_all (fs : FS) (db : DB) (p t : String) :
    import_result_handled (import_file_to_db fs db p t).2.1 p t := by
  by_cases h1 : fsExists fs p = false
  · simp [import_file_to_db, h1, import_result_handled]
  · by_cases h2 : (validate_file_type p).1 = false
    · simp [import_file_to_db, h1, h2, validate_file_type_snd h2,
        import_result_handled]
    · rw [Bool.not_eq_false] at h1
      rw [Bool.not_eq_false] at h2
      cases hlk : lookupTable db t with
      | none =>
        simp [import_file_to_db, h1, h2, hlk, import_result_handled]
      | some tb =>
        by_cases h4 : (get_file_headers fs p).1 = []
        · simp [import_file_to_db, h1, h2, hlk, h4, import_result_handled]
        · by_cases h5 : (get_file_headers fs p).1.toFinset =
            (if "id" ∈ (get_file_headers fs p).1 then tb.columns
             else tb.columns.erase "id").toFinset
          · by_cases h6 : "id" ∈ tb.columns
            · cases hres : (insert_rows { tb with rows := [], seq := 1 }
                (if (get_file_headers fs p).2 = "csv" then read_csv_records fs p
                 else read_json_records fs p)).2.1 with
              | ok u =>
                simp [import_file_to_db, h1, h2, hlk, h4, h5, h6, hres,
                  import_result_handled]
              | error e =>
                simp [import_file_to_db, h1, h2, hlk, h4, h5, h6, hres,
                  import_result_handled]
            · simp [import_file_to_db, h1, h2, hlk, h4, h5, h6,
                import_result_handled]
          · simp [import_file_to_db, h1, h2, hlk, h4, h5, import_result_handled]

/-- C4.  The five validation steps of `import_file_to_db` run in source
order — file existence, extension, table existence, readable non-empty
header, column-set match — each short-circuiting with its own message
and an unchanged database; the five messages are pairwise distinct for
all interpolated arguments; and every run's result is one of the
validation messages, the caught-and-wrapped `Error during import`
message, or the success message, so no exception reaches the caller. -/
theorem import_precondition_order (fs : FS) (db : DB) (p t : String) :
    (fsExists fs p = false →
      import_file_to_db fs db p t =
        (db, msg_file_missing p, [Effect.statFile p])) ∧
    (fsExists fs p = true → (validate_file_type p).1 = false →
      import_file_to_db fs db p t =
        (db, msg_bad_extension, [Effect.statFile p])) ∧
    (fsExists fs p = true → (validate_file_type p).1 = true →
      lookupTable db t = none →
      import_file_to_db fs db p t =
        (db, msg_table_missing t, [Effect.statFile p, Effect.dbQuery])) ∧
    (∀ tb ft, fsExists fs p = true → (validate_file_type p).1 = true →
      lookupTable db t = some tb → get_file_headers fs p = ([], ft) →
      import_file_to_db fs db p t =
        (db, msg_bad_headers,
         [Effect.statFile p, Effect.dbQuery, Effect.readFile p])) ∧
    (∀ tb h ft, fsExists fs p = true → (validate_file_type p).1 = true →
      lookupTable db t = some tb → get_file_headers fs p = (h, ft) → h ≠ [] →
      h.toFinset ≠
        (if "id" ∈ h then tb.columns else tb.columns.erase "id").toFinset →
      import_file_to_db fs db p t =
        (db, msg_mismatch (if "id" ∈ h then tb.columns else tb.columns.erase "id") h,
         [Effect.statFile p, Effect.dbQuery, Effect.readFile p, Effect.dbQuery])) ∧
    (∀ (p1 t1 : String) (e1 f1 : List String),
      msg_file_missing p1 ≠ msg_bad_extension ∧
      msg_file_missing p1 ≠ msg_table_missing t1 ∧
      msg_file_missing p1 ≠ msg_bad_headers ∧
      msg_file_missing p1 ≠ msg_mismatch e1 f1 ∧
      msg_bad_extension ≠ msg_table_missing t1 ∧
      msg_bad_extension ≠ msg_bad_headers ∧
      msg_bad_extension ≠ msg_mismatch e1 f1 ∧
      msg_table_missing t1 ≠ msg_bad_headers ∧
      msg_table_missing t1 ≠ msg_mismatch e1 f1 ∧
      msg_bad_headers ≠ msg_mismatch e1 f1) ∧
    import_result_handled (import_file_to_db fs db p t).2.1 p t := by
  refine ⟨?_, ?_, ?_, ?_, ?_, ?_, import_result_handled_all fs db p t⟩
  · intro h1
    simp [import_file_to_db, h1]
  · intro h1 h2
    simp [import_file_to_db, h1, h2, validate_file_type_snd h2]
  · intro h1 h2 hlk
    simp [import_file_to_db, h1, h2, hlk]
  · intro tb ft h1 h2 hlk hgh
    simp [import_file_to_db, h1, h2, hlk, hgh]
  · intro tb h ft h1 h2 hlk hgh hne hmm
    simp [import_file_to_db, h1, h2, hlk, hgh, hne, hmm]
  · intro p1 t1 e1 f1
    refine ⟨?_, ?_, ?_, ?_, ?_, ?_, ?_, ?_, ?_, ?_⟩
    · exact string_ne_of_get 7 (by rw [msg_file_missing_get7, msg_bad_extension_get7]; decide)
    · exact string_ne_of_get 7 (by rw [msg_file_missing_get7, msg_table_missing_get7]; decide)
    · exact string_ne_of_get 7 (by rw [msg_file_missing_get7, msg_bad_headers_get7]; decide)
    · exact string_ne_of_getLast (by rw [msg_file_missing_last, msg_mismatch_last]; decide)
    · exact string_ne_of_get 7 (by rw [msg_bad_extension_get7, msg_table_missing_get7]; decide)
    · decide
    · exact string_ne_of_get 7 (by rw [msg_bad_extension_get7, msg_mismatch_get7]; decide)
    · exact string_ne_of_get 7 (by rw [msg_table_missing_get7, msg_bad_headers_get7]; decide)
    · exact string_ne_of_get 7 (by rw [msg_table_missing_get7, msg_mismatch_get7]; decide)
    · exact string_ne_of_get 7 (by rw [msg_bad_headers_get7, msg_mismatch_get7]; decide)

/-! ### Witnesses for the theorems above -/

theorem import_column_check_sets_and_id_witness :
    (∀ h1 h2 : List String, h1.toFinset = h2.toFinset →
      ((h1.toFinset =
          (get_table_columns ⟨[("t", ⟨["id", "name"], [], 1⟩)], true, ""⟩ "t"
            ("id" ∈ h1)).toFinset) ↔
        (h2.toFinset =
          (get_table_columns ⟨[("t", ⟨["id", "name"], [], 1⟩)], true, ""⟩ "t"
            ("id" ∈ h2)).toFinset))) ∧
    (∀ h : List String,
      "id" ∈ get_table_columns ⟨[("t", ⟨["id", "name"], [], 1⟩)], true, ""⟩ "t"
          ("id" ∈ h) ↔ "id" ∈ h) ∧
    (∀ (fs : FS) (p ft : String) (h : List String),
      fsExists fs p = true →
      (validate_file_type p).1 = true →
      get_file_headers fs p = (h, ft) →
      h ≠ [] →
      h.toFinset ≠
        (get_table_columns ⟨[("t", ⟨["id", "name"], [], 1⟩)], true, ""⟩ "t"
          ("id" ∈ h)).toFinset →
      (import_file_to_db fs ⟨[("t", ⟨["id", "name"], [], 1⟩)], true, ""⟩ p "t").2.1 =
        msg_mismatch
          (get_table_columns ⟨[("t", ⟨["id", "name"], [], 1⟩)], true, ""⟩ "t"
            ("id" ∈ h)) h) :=
  import_column_check_sets_and_id ⟨[("t", ⟨["id", "name"], [], 1⟩)], true, ""⟩
    "t" ⟨["id", "name"], [], 1⟩ (by rfl) (by decide) (by decide)

theorem import_precondition_order_witness :
    import_file_to_db [] ⟨[], true, ""⟩ "f.csv" "t" =
      (⟨[], true, ""⟩, msg_file_missing "f.csv", [Effect.statFile "f.csv"]) :=
  (import_precondition_order [] ⟨[], true, ""⟩ "f.csv" "t").1 (by rfl)

/-! ### C1: import followed by export -/

/-- C1 (amended theorem).  For a table whose columns match the file and
whose file carries the `id` column (well-formed rows: each row binds
exactly the header's key set, with JSON-representable scalars in the
JSON case), importing the file and then exporting the table to a fresh
path of the same format succeeds and reproduces exactly the same
multiset of rows, each row read as its column-to-value mapping. -/
theorem import_export_roundtrip_with_id
    (fs : FS) (db : DB) (p p' t resp : String) (tb : Table) (fd : FileData)
    (hlk : lookupTable db t = some tb)
    (hid : "id" ∈ tb.columns)
    (hfile : fs.lookup p = some fd)
    (hfmt : format_matches fd p = true)
    (hgood : good_import_file tb.columns fd)
    (hfresh : fs.lookup p' = none)
    (hfmt' : format_matches fd p' = true) :
    (import_file_to_db fs db p t).2.1 = msg_import_ok p t ∧
    (export_db_to_file fs (import_file_to_db fs db p t).1 t p' resp).2 =
      msg_export_ok t p' ∧
    ∃ out,
      (export_db_to_file fs (import_file_to_db fs db p t).1 t p' resp).1.lookup p' =
        some out ∧
      file_row_maps out = file_row_maps fd := by
  have hnofs : fsExists fs p' = false := by simp [fsExists, hfresh]
  have hlksome : (lookupTable db t).isSome = true := by rw [hlk]; rfl
  cases fd with
  | unreadable => exact absurd hgood (by simp [good_import_file])
  | csvData records =>
    cases records with
    | nil => exact absurd hgood (by simp [good_import_file])
    | cons h rs =>
      have hg : h.Nodup ∧ h.toFinset = tb.columns.toFinset ∧
          ∀ r ∈ rs, r.length = h.length := hgood
      obtain ⟨hhnd, hhset, hlen⟩ := hg
      have hcsv : py_endswith (py_lower p) ".csv" = true := hfmt
      have hcsv' : py_endswith (py_lower p') ".csv" = true := hfmt'
      have hidh : "id" ∈ h := by
        rw [← List.mem_toFinset, hhset, List.mem_toFinset]
        exact hid
      have hne : h ≠ [] := List.ne_nil_of_mem hidh
      have hgh : get_file_headers fs p = (h, "csv") := by
        simp [get_file_headers, hfile, hcsv]
      have hrecs : read_csv_records fs p =
          rs.map (fun r => h.zip (r.map Value.vStr)) := by
        simp [read_csv_records, hfile]
      have hallrecs : ∀ a ∈ rs.map (fun r => h.zip (r.map Value.vStr)),
          (rowKeys a).toFinset = tb.columns.toFinset ∧ "id" ∈ rowKeys a := by
        intro a hma
        rw [List.mem_map] at hma
        obtain ⟨r, hr, rfl⟩ := hma
        rw [csv_keys h r (hlen r hr)]
        exact ⟨hhset, hidh⟩
      have hins := insert_rows_all_ok tb.columns
        (rs.map fun r => h.zip (r.map Value.vStr)) { tb with rows := [], seq := 1 }
        rfl hallrecs
      have himp0 : (import_file_to_db fs db p t).1 = setTable db t
          { columns := tb.columns,
            rows := rs.map
              (fun r => tb.columns.map (rowValue (h.zip (r.map Value.vStr)) 0)),
            seq := 1 } := by
        simp [import_file_to_db, fsExists, hfile, validate_file_type_of_csv hcsv,
          hlk, hgh, hne, hidh, hhset, hid, hrecs, hins, Function.comp_def]
      have himp1 : (import_file_to_db fs db p t).2.1 = msg_import_ok p t := by
        simp [import_file_to_db, fsExists, hfile, validate_file_type_of_csv hcsv,
          hlk, hgh, hne, hidh, hhset, hid, hrecs, hins, Function.comp_def]
      have hlk1 : lookupTable (import_file_to_db fs db p t).1 t =
          some { columns := tb.columns,
                 rows := rs.map
                   (fun r => tb.columns.map (rowValue (h.zip (r.map Value.vStr)) 0)),
                 seq := 1 } := by
        rw [himp0]
        exact lookupTable_setTable db t _ hlksome
      have hexp : export_db_to_file fs (import_file_to_db fs db p t).1 t p' resp =
          (fsWrite fs p'
            (FileData.csvData (tb.columns ::
              (rs.map
                (fun r => tb.columns.map (rowValue (h.zip (r.map Value.vStr)) 0))).map
                  (fun r => r.map csvCell))),
           msg_export_ok t p') := by
        simp [export_db_to_file, validate_file_type_of_csv hcsv', hlk1, hnofs, hcsv']
      refine ⟨himp1, by rw [hexp], FileData.csvData (tb.columns ::
        (rs.map
          (fun r => tb.columns.map (rowValue (h.zip (r.map Value.vStr)) 0))).map
            (fun r => r.map csvCell)), ?_, ?_⟩
      · rw [hexp]
        simp [fsWrite, List.lookup]
      · simp only [file_row_maps, List.map_map]
        apply congrArg
        apply List.map_congr_left
        intro r hr
        simp only [Function.comp]
        exact csv_row_roundtrip tb.columns h r hhnd hhset (hlen r hr)
  | jsonArray rows =>
    cases rows with
    | nil => exact absurd hgood (by simp [good_import_file])
    | cons r0 rs =>
      have hg : ∀ r ∈ r0 :: rs,
          (rowKeys r).Nodup ∧ (rowKeys r).toFinset = tb.columns.toFinset ∧
            ∀ kv ∈ r, json_scalar kv.2 = true := hgood
      have hfmtp : (py_endswith (py_lower p) ".json" &&
          !py_endswith (py_lower p) ".csv") = true := hfmt
      have hfmtp' : (py_endswith (py_lower p') ".json" &&
          !py_endswith (py_lower p') ".csv") = true := hfmt'
      rw [Bool.and_eq_true, Bool.not_eq_true'] at hfmtp hfmtp'
      obtain ⟨hjson, hncsv⟩ := hfmtp
      obtain ⟨hjson', hncsv'⟩ := hfmtp'
      have hg0 := hg r0 (List.mem_cons_self r0 rs)
      have hidh : "id" ∈ rowKeys r0 := by
        rw [← List.mem_toFinset, hg0.2.1, List.mem_toFinset]
        exact hid
      have hne : rowKeys r0 ≠ [] := List.ne_nil_of_mem hidh
      have hgh : get_file_headers fs p = (rowKeys r0, "json") := by
        simp [get_file_headers, hfile, hncsv, rowKeys]
      have hrecs : read_json_records fs p = r0 :: rs := by
        simp [read_json_records, hfile]
      have hallrecs : ∀ a ∈ r0 :: rs,
          (rowKeys a).toFinset = tb.columns.toFinset ∧ "id" ∈ rowKeys a := by
        intro a hma
        refine ⟨(hg a hma).2.1, ?_⟩
        rw [← List.mem_toFinset, (hg a hma).2.1, List.mem_toFinset]
        exact hid
      have hins := insert_rows_all_ok tb.columns (r0 :: rs)
        { tb with rows := [], seq := 1 } rfl hallrecs
      have himp0 : (import_file_to_db fs db p t).1 = setTable db t
          { columns := tb.columns,
            rows := (r0 :: rs).map (fun a => tb.columns.map (rowValue a 0)),
            seq := 1 } := by
        simp [import_file_to_db, fsExists, hfile, validate_file_type_of_json hjson,
          hlk, hgh, hne, hidh, hg0.2.1, hid, hrecs, hins, Function.comp_def]
      have himp1 : (import_file_to_db fs db p t).2.1 = msg_import_ok p t := by
        simp [import_file_to_db, fsExists, hfile, validate_file_type_of_json hjson,
          hlk, hgh, hne, hidh, hg0.2.1, hid, hrecs, hins, Function.comp_def]
      have hlk1 : lookupTable (import_file_to_db fs db p t).1 t =
          some { columns := tb.columns,
                 rows := (r0 :: rs).map (fun a => tb.columns.map (rowValue a 0)),
                 seq := 1 } := by
        rw [himp0]
        exact lookupTable_setTable db t _ hlksome
      have hexp : export_db_to_file fs (import_file_to_db fs db p t).1 t p' resp =
          (fsWrite fs p'
            (FileData.jsonArray
              (((r0 :: rs).map (fun a => tb.columns.map (rowValue a 0))).map
                (fun r => (tb.columns.zip r).map (fun cv => (cv.1, jsonCoerce cv.2))))),
           msg_export_ok t p') := by
        simp [export_db_to_file, validate_file_type_of_json hjson', hlk1, hnofs, hncsv']
      refine ⟨himp1, by rw [hexp], FileData.jsonArray
        (((r0 :: rs).map (fun a => tb.columns.map (rowValue a 0))).map
          (fun r => (tb.columns.zip r).map (fun cv => (cv.1, jsonCoerce cv.2)))), ?_, ?_⟩
      · rw [hexp]
        simp [fsWrite, List.lookup]
      · simp only [file_row_maps, List.map_map]
        apply congrArg
        apply List.map_congr_left
        intro a ha
        simp only [Function.comp]
        exact json_row_roundtrip tb.columns a (hg a ha).1 (hg a ha).2.1 (hg a ha).2.2

/-- C1 (counterexample).  A table `t (id, name)` and a file `f.csv` with
header `name` satisfy the import's column-matching rule (the `id`
column is excluded because the file lacks it); import followed by
export both succeed, yet the exported file's row set differs from the
source file's: the exported row carries the generated `id` field. -/
theorem import_export_not_row_preserving_cx :
    (import_file_to_db [("f.csv", FileData.csvData [["name"], ["a"]])]
        ⟨[("t", ⟨["id", "name"], [], 1⟩)], true, ""⟩ "f.csv" "t").2.1 =
      msg_import_ok "f.csv" "t" ∧
    (export_db_to_file [("f.csv", FileData.csvData [["name"], ["a"]])]
        (import_file_to_db [("f.csv", FileData.csvData [["name"], ["a"]])]
          ⟨[("t", ⟨["id", "name"], [], 1⟩)], true, ""⟩ "f.csv" "t").1
        "t" "out.csv" "x").2 = msg_export_ok "t" "out.csv" ∧
    ((export_db_to_file [("f.csv", FileData.csvData [["name"], ["a"]])]
        (import_file_to_db [("f.csv", FileData.csvData [["name"], ["a"]])]
          ⟨[("t", ⟨["id", "name"], [], 1⟩)], true, ""⟩ "f.csv" "t").1
        "t" "out.csv" "x").1.lookup "out.csv").map file_row_maps ≠
      some (file_row_maps (FileData.csvData [["name"], ["a"]])) := by
  decide

theorem import_export_roundtrip_with_id_witness :
    (import_file_to_db [("f.csv", FileData.csvData [["id", "name"], ["1", "bob"]])]
        ⟨[("t", ⟨["id", "name"], [], 1⟩)], true, ""⟩ "f.csv" "t").2.1 =
      msg_import_ok "f.csv" "t" ∧
    (export_db_to_file [("f.csv", FileData.csvData [["id", "name"], ["1", "bob"]])]
        (import_file_to_db
          [("f.csv", FileData.csvData [["id", "name"], ["1", "bob"]])]
          ⟨[("t", ⟨["id", "name"], [], 1⟩)], true, ""⟩ "f.csv" "t").1
        "t" "out.csv" "x").2 = msg_export_ok "t" "out.csv" ∧
    ∃ out,
      (export_db_to_file [("f.csv", FileData.csvData [["id", "name"], ["1", "bob"]])]
        (import_file_to_db
          [("f.csv", FileData.csvData [["id", "name"], ["1", "bob"]])]
          ⟨[("t", ⟨["id", "name"], [], 1⟩)], true, ""⟩ "f.csv" "t").1
        "t" "out.csv" "x").1.lookup "out.csv" = some out ∧
      file_row_maps out =
        file_row_maps (FileData.csvData [["id", "name"], ["1", "bob"]]) :=
  import_export_roundtrip_with_id
    [("f.csv", FileData.csvData [["id", "name"], ["1", "bob"]])]
    ⟨[("t", ⟨["id", "name"], [], 1⟩)], true, ""⟩ "f.csv" "out.csv" "t" "x"
    ⟨["id", "name"], [], 1⟩ (FileData.csvData [["id", "name"], ["1", "bob"]])
    (by rfl) (by decide) (by rfl) (by decide)
    ⟨by decide, by decide, by decide⟩ (by rfl) (by decide)

theorem empty_json_array_rejected_witness :
    get_file_headers [("f.json", FileData.jsonArray [])] "f.json" = ([], "json") ∧
    import_file_to_db [("f.json", FileData.jsonArray [])]
        ⟨[("t", ⟨["id"], [], 1⟩)], true, ""⟩ "f.json" "t" =
      (⟨[("t", ⟨["id"], [], 1⟩)], true, ""⟩, msg_bad_headers,
       [Effect.statFile "f.json", Effect.dbQuery, Effect.readFile "f.json"]) :=
  empty_json_array_rejected [("f.json", FileData.jsonArray [])]
    ⟨[("t", ⟨["id"], [], 1⟩)], true, ""⟩ "f.json" "t" ⟨["id"], [], 1⟩
    (by rfl) (by decide) (by decide) (by rfl)

theorem import_schema_mismatch_no_mutation_witness :
    import_file_to_db [("f.csv", FileData.csvData [["name"], ["a"]])]
        ⟨[("t", ⟨["id", "email"], [], 1⟩)], true, ""⟩ "f.csv" "t" =
      (⟨[("t", ⟨["id", "email"], [], 1⟩)], true, ""⟩,
       msg_mismatch
         (if "id" ∈ ["name"] then ["id", "email"] else ["id", "email"].erase "id")
         ["name"],
       [Effect.statFile "f.csv", Effect.dbQuery, Effect.readFile "f.csv",
        Effect.dbQuery]) :=
  import_schema_mismatch_no_mutation [("f.csv", FileData.csvData [["name"], ["a"]])]
    ⟨[("t", ⟨["id", "email"], [], 1⟩)], true, ""⟩ "f.csv" "t" "csv"
    ⟨["id", "email"], [], 1⟩ ["name"]
    (by decide) (by decide) (by rfl) (by decide) (by decide) (by decide)

theorem unsupported_extension_rejected_after_stat_witness :
    import_file_to_db [("r.txt", FileData.unreadable)] ⟨[], true, ""⟩ "r.txt" "t" =
      (⟨[], true, ""⟩, msg_bad_extension, [Effect.statFile "r.txt"]) ∧
    (∀ q : String,
      Effect.readFile q ∉
        (import_file_to_db [("r.txt", FileData.unreadable)] ⟨[], true, ""⟩
          "r.txt" "t").2.2) ∧
    Effect.dbQuery ∉
      (import_file_to_db [("r.txt", FileData.unreadable)] ⟨[], true, ""⟩
        "r.txt" "t").2.2 :=
  unsupported_extension_rejected_after_stat [("r.txt", FileData.unreadable)]
    ⟨[], true, ""⟩ "r.txt" "t" (by decide) (by decide)

theorem export_decline_overwrite_cancels_witness :
    export_db_to_file [("out.csv", FileData.csvData [["a"]])]
        ⟨[("t", ⟨["id"], [], 1⟩)], true, ""⟩ "t" "out.csv" "n" =
      ([("out.csv", FileData.csvData [["a"]])], "Export cancelled") ∧
    (export_db_to_file [("out.csv", FileData.csvData [["a"]])]
        ⟨[("t", ⟨["id"], [], 1⟩)], true, ""⟩ "t" "out.csv" "n").1.lookup "out.csv" =
      some (FileData.csvData [["a"]]) ∧
    (∀ s : String, "Export cancelled" ≠ "Error" ++ s) :=
  export_decline_overwrite_cancels [("out.csv", FileData.csvData [["a"]])]
    ⟨[("t", ⟨["id"], [], 1⟩)], true, ""⟩ "t" "out.csv" ⟨["id"], [], 1⟩
    (FileData.csvData [["a"]]) (by decide) (by rfl) (by rfl)

theorem export_overwrite_requires_y_witness :
    (py_lower "N" ≠ "y" →
      export_db_to_file [("out.csv", FileData.csvData [["a"]])]
          ⟨[("t", ⟨["id"], [], 1⟩)], true, ""⟩ "t" "out.csv" "N" =
        ([("out.csv", FileData.csvData [["a"]])], "Export cancelled")) ∧
    (py_lower "N" = "y" →
      (export_db_to_file [("out.csv", FileData.csvData [["a"]])]
          ⟨[("t", ⟨["id"], [], 1⟩)], true, ""⟩ "t" "out.csv" "N").2 =
        msg_export_ok "t" "out.csv") :=
  export_overwrite_requires_y [("out.csv", FileData.csvData [["a"]])]
    ⟨[("t", ⟨["id"], [], 1⟩)], true, ""⟩ "t" "out.csv" "N" ⟨["id"], [], 1⟩
    (by decide) (by rfl) (by decide)

theorem header_only_csv_clears_table_witness :
    import_file_to_db [("f.csv", FileData.csvData [["id", "name"]])]
        ⟨[("t", ⟨["id", "name"], [[Value.vInt 1, Value.vStr "bob"]], 5⟩)], true, ""⟩
        "f.csv" "t" =
      (setTable
        ⟨[("t", ⟨["id", "name"], [[Value.vInt 1, Value.vStr "bob"]], 5⟩)], true, ""⟩
        "t" ⟨["id", "name"], [], 1⟩, msg_import_ok "f.csv" "t",
       [Effect.statFile "f.csv", Effect.dbQuery, Effect.readFile "f.csv",
        Effect.dbQuery, Effect.dbQuery, Effect.dbQuery, Effect.readFile "f.csv"]) ∧
    lookupTable
      (import_file_to_db [("f.csv", FileData.csvData [["id", "name"]])]
        ⟨[("t", ⟨["id", "name"], [[Value.vInt 1, Value.vStr "bob"]], 5⟩)], true, ""⟩
        "f.csv" "t").1 "t" = some ⟨["id", "name"], [], 1⟩ :=
  header_only_csv_clears_table [("f.csv", FileData.csvData [["id", "name"]])]
    ⟨[("t", ⟨["id", "name"], [[Value.vInt 1, Value.vStr "bob"]], 5⟩)], true, ""⟩
    "f.csv" "t" ⟨["id", "name"], [[Value.vInt 1, Value.vStr "bob"]], 5⟩
    ["id", "name"] (by rfl) (by decide) (by rfl) (by decide) (by decide) (by decide)

end DjDbManager
